import Mathlib

/-!
Verification development for the esi-scripts repository (three Python
scripts: create_adf_esi.py, create_uv_plot.py, extract_energies.py).

The scripts are shallowly embedded: Python floats are modelled as
rationals (every float value is a rational; all claim-relevant
arithmetic here stays far inside the range where the two agree),
uncaught Python exceptions are modelled by the Except monad with the
exception kind recorded, and text written to a file or to standard
output is modelled as the String that would be written.  Functions keep
the names of the source functions they embed.
-/

/-- Kinds of Python exception raised by the embedded code paths:
dictionary KeyError (with the missing key), list IndexError, float()
ValueError, missing-attribute AttributeError on a parsed log, and
TypeError (iterating a non-iterable). -/
inductive PyErr where
  | keyError (k : String)
  | indexError
  | valueError
  | attributeError
  | typeError
deriving DecidableEq, Repr

/-- Embeds Except results into Option, forgetting the exception. -/
def excToOption {α : Type} : Except PyErr α → Option α
  | .ok v => some v
  | .error _ => none

/-- Tests whether the second character list starts with the first. -/
def startsSeq : List Char → List Char → Bool
  | [], _ => true
  | _ :: _, [] => false
  | a :: as, b :: bs => a = b && startsSeq as bs

/-- Tests whether the first character list occurs contiguously inside
the second; used for the Python `needle in line` substring test. -/
def containsSeq (needle : List Char) : List Char → Bool
  | [] => startsSeq needle []
  | c :: cs => startsSeq needle (c :: cs) || containsSeq needle cs

/-- Python `needle in hay` on strings. -/
def isIn (needle hay : String) : Bool :=
  containsSeq needle.data hay.data

/-- Accumulator-based whitespace splitter used by `pySplit`. -/
def splitWSAux : List Char → List Char → List (List Char)
  | [], acc => if acc = [] then [] else [acc.reverse]
  | c :: cs, acc =>
    if c.isWhitespace then
      if acc = [] then splitWSAux cs [] else acc.reverse :: splitWSAux cs []
    else splitWSAux cs (c :: acc)

/-- Python `line.split()` with no argument: split on runs of whitespace,
dropping empty fields and outer whitespace. -/
def pySplit (s : String) : List String :=
  (splitWSAux s.data []).map String.mk

/-- Python slice `s[a:b]` on a string (for 0 <= a <= b). -/
def pySliceStr (s : String) (a b : Nat) : String :=
  String.mk ((s.data.drop a).take (b - a))

/-- Numeric value of a list of decimal digit characters (most
significant first). -/
def digitsVal (cs : List Char) : Nat :=
  cs.foldl (fun a c => 10 * a + (c.toNat - 48)) 0

/-- Python `float(s)` restricted to plain decimal literals
(optional sign, digits, optional fraction): the only shapes the
embedded scripts feed it.  Scientific notation and the inf/nan
spellings are not modelled; any other input is a ValueError (`none`). -/
def pyFloat? (s : String) : Option Rat :=
  let p : Int × List Char :=
    match s.data with
    | '-' :: r => (-1, r)
    | '+' :: r => (1, r)
    | r => (1, r)
  let ip := p.2.takeWhile (fun c => c.isDigit)
  let rest := p.2.dropWhile (fun c => c.isDigit)
  match rest with
  | [] => if ip = [] then none else some ((p.1 : Rat) * digitsVal ip)
  | '.' :: fp =>
    if ip = [] && fp = [] then none
    else if fp.all (fun c => c.isDigit) then
      some ((p.1 : Rat) * ((digitsVal ip : Rat) + (digitsVal fp : Rat) / 10 ^ fp.length))
    else none
  | _ => none

/-- Decimal digits of a natural number, least significant first, with
explicit fuel so that the kernel can evaluate it. -/
def natDigitsLE : Nat → Nat → List Nat
  | 0, _ => []
  | _, 0 => []
  | fuel + 1, n => n % 10 :: natDigitsLE fuel (n / 10)

/-- Decimal digit characters of a natural number, least significant
first; 0 renders as "0". -/
def digitCharsLE (n : Nat) : List Char :=
  if n = 0 then ['0'] else (natDigitsLE n n).map Nat.digitChar

/-- Decimal rendering of a natural number. -/
def natChars (n : Nat) : List Char :=
  (digitCharsLE n).reverse

/-- Decimal rendering of an integer. -/
def intChars (n : Int) : List Char :=
  (if n < 0 then ['-'] else []) ++ natChars n.natAbs

/-- Fractional part rendered to exactly `nd` digits, zero-padded on the
left. -/
def fracChars (nd k : Nat) : List Char :=
  List.replicate (nd - (natChars k).length) '0' ++ natChars k

/-- Thousands grouping: inserts a comma after every three characters of
a least-significant-first digit list, as CPython's ',' format option
does (viewed from the right of the printed number). -/
def group3 : List Char → List Char
  | a :: b :: c :: d :: rest => a :: b :: c :: ',' :: group3 (d :: rest)
  | ds => ds

/-- Round-half-to-even on rationals, the rounding used by CPython's
round() and string formatting of binary floats at the scales the
scripts handle. -/
def roundHalfEven (q : Rat) : Int :=
  let f := q.floor
  let r := q - f
  if r < 1 / 2 then f
  else if 1 / 2 < r then f + 1
  else if f % 2 = 0 then f else f + 1

/-- Python `round(q, nd)`. -/
def pyRound (nd : Nat) (q : Rat) : Rat :=
  (roundHalfEven (q * 10 ^ nd) : Rat) / 10 ^ nd

/-- Python `'{:.Nf}'.format(q)`: fixed-point rendering with `nd`
fractional digits.  The CPython "-0.00" negative-zero output is
rendered here without the sign; no claim depends on that case. -/
def pyFixed (nd : Nat) (q : Rat) : String :=
  let n := roundHalfEven (q * 10 ^ nd)
  let m := n.natAbs
  (if n < 0 then "-" else "") ++
    String.mk (natChars (m / 10 ^ nd)) ++ "." ++ String.mk (fracChars nd (m % 10 ^ nd))

/-- Python `'{:,f}'.format(q)`: fixed-point with the default six
fractional digits and comma thousands grouping of the integer part.
Negative zero is rendered without the sign; no claim depends on it. -/
def pyFormatCommaF (q : Rat) : String :=
  let n := roundHalfEven (q * 10 ^ 6)
  let m := n.natAbs
  (if n < 0 then "-" else "") ++
    String.mk ((group3 (digitCharsLE (m / 10 ^ 6))).reverse) ++ "." ++
    String.mk (fracChars 6 (m % 10 ^ 6))

/-- Stand-in for Python `str()` on a float value: an injective textual
rendering of the rational ("num" or "num/den").  The exact decimal
spelling CPython chooses is immaterial to every claim, which only
concern WHICH values are emitted and in what arrangement. -/
def pyStr (q : Rat) : String :=
  String.mk (intChars q.num) ++
    (if q.den = 1 then "" else "/" ++ String.mk (natChars q.den))

/-- Python `sep.join(xs)`. -/
def joinSep (sep : String) : List String → String
  | [] => ""
  | [x] => x
  | x :: y :: xs => x ++ sep ++ joinSep sep (y :: xs)

/-- Python `s.rjust(w)` (space fill). -/
def pyRjust (w : Nat) (s : String) : String :=
  String.mk (List.replicate (w - s.length) ' ') ++ s

/-- Python `s.ljust(w)` (space fill). -/
def pyLjust (w : Nat) (s : String) : String :=
  s ++ String.mk (List.replicate (w - s.length) ' ')

/-- Index of the last '.' in a character list, if any. -/
def lastDotIdx (cs : List Char) : Option Nat :=
  match cs.reverse.findIdx? (fun c => c = '.') with
  | none => none
  | some k => some (cs.length - 1 - k)

/-- Python `os.path.splitext(s)[0]`: everything before the last dot,
except that a name whose characters before that dot are all dots (for
example ".bashrc") is returned whole. -/
def pySplitextBase (s : String) : String :=
  match lastDotIdx s.data with
  | none => s
  | some i =>
    if (s.data.take i).all (fun c => c = '.') then s else String.mk (s.data.take i)

/-- Python dictionary read `d[k]` on an optional field: a missing key
raises KeyError(k). -/
def getKey (o : Option Rat) (k : String) : Except PyErr Rat :=
  match o with
  | some v => .ok v
  | none => .error (.keyError k)

/-- Python `float(line.split()[k])`: IndexError when the token list is
too short, ValueError when the token is not a float literal. -/
def pyTokenFloat (line : String) (k : Nat) : Except PyErr Rat :=
  match (pySplit line).get? k with
  | none => .error .indexError
  | some t =>
    match pyFloat? t with
    | none => .error .valueError
    | some v => .ok v

/-! ## extract_energies.py -/

/-- The energies dictionary built by `extract_data`: one optional entry
per recognized thermochemistry field, absent until its marker line has
been seen.  Field names follow the dictionary keys of the source. -/
structure Energies where
  scf_energy : Option Rat := none
  zpve : Option Rat := none
  energy : Option Rat := none
  enthalpy : Option Rat := none
  gibbsenergy : Option Rat := none
deriving DecidableEq, Repr

/-- The five marker-recognized thermochemistry fields of
`extract_data`, in the order the source tests them on each line. -/
inductive Marker where
  | scf
  | zpve
  | energy
  | enthalpy
  | gibbs
deriving DecidableEq, Repr

/-- The per-line recognition test of `extract_data` for each marker:
`line[1:9] == 'SCF Done'` for the SCF energy, and a substring test for
the four thermal-correction markers. -/
def markerMatches (m : Marker) (line : String) : Bool :=
  match m with
  | .scf => pySliceStr line 1 9 == "SCF Done"
  | .zpve => isIn "Zero-point correction" line
  | .energy => isIn "Thermal correction to Energy" line
  | .enthalpy => isIn "Thermal correction to Enthalpy" line
  | .gibbs => isIn "Thermal correction to Gibbs Free Energy" line

/-- The token position `extract_data` parses for each marker
(`line.split()[4]`, `[2]`, `[4]`, `[4]`, `[6]` respectively). -/
def markerTokenIdx : Marker → Nat
  | .scf => 4
  | .zpve => 2
  | .energy => 4
  | .enthalpy => 4
  | .gibbs => 6

/-- Dictionary write `energies[key] = v` for the field of a marker. -/
def setField (m : Marker) (v : Option Rat) (e : Energies) : Energies :=
  match m with
  | .scf => { e with scf_energy := v }
  | .zpve => { e with zpve := v }
  | .energy => { e with energy := v }
  | .enthalpy => { e with enthalpy := v }
  | .gibbs => { e with gibbsenergy := v }

/-- Dictionary read of the field a marker populates. -/
def markerField (m : Marker) (e : Energies) : Option Rat :=
  match m with
  | .scf => e.scf_energy
  | .zpve => e.zpve
  | .energy => e.energy
  | .enthalpy => e.enthalpy
  | .gibbs => e.gibbsenergy

/-- The value `extract_data` parses from a line for a marker. -/
def markerValue (m : Marker) (line : String) : Except PyErr Rat :=
  pyTokenFloat line (markerTokenIdx m)

/-- One of the five independent `if` statements in the line loop of
`extract_data`: when the marker matches, parse its token and overwrite
the field; otherwise leave the dictionary unchanged. -/
def applyMarker (m : Marker) (line : String) (e : Energies) : Except PyErr Energies :=
  if markerMatches m line then
    match markerValue m line with
    | .error err => .error err
    | .ok v => .ok (setField m (some v) e)
  else .ok e

/-- The body of the `for line in file` loop of `extract_data`: the five
marker tests applied in source order to one line. -/
def lineStep (e : Energies) (line : String) : Except PyErr Energies :=
  match applyMarker .scf line e with
  | .error err => .error err
  | .ok e1 =>
    match applyMarker .zpve line e1 with
    | .error err => .error err
    | .ok e2 =>
      match applyMarker .energy line e2 with
      | .error err => .error err
      | .ok e3 =>
        match applyMarker .enthalpy line e3 with
        | .error err => .error err
        | .ok e4 => applyMarker .gibbs line e4

/-- The line loop of `extract_data` from a given dictionary state. -/
def extractFrom (e : Energies) : List String → Except PyErr Energies
  | [] => .ok e
  | l :: ls =>
    match lineStep e l with
    | .error err => .error err
    | .ok e1 => extractFrom e1 ls

/-- `extract_data`: scan the lines of a log file, populating the
energies dictionary; a file is modelled by its list of lines. -/
def extract_data (lines : List String) : Except PyErr Energies :=
  extractFrom {} lines

/-- `print_energies` (full mode): the tab-separated line printed for a
file, reading all five dictionary fields in source order; a missing
field raises KeyError. -/
def print_energies (data : Energies) (filename : String) : Except PyErr String :=
  match getKey data.scf_energy "scf_energy" with
  | .error e => .error e
  | .ok v1 =>
    match getKey data.zpve "zpve" with
    | .error e => .error e
    | .ok v2 =>
      match getKey data.energy "energy" with
      | .error e => .error e
      | .ok v3 =>
        match getKey data.enthalpy "enthalpy" with
        | .error e => .error e
        | .ok v4 =>
          match getKey data.gibbsenergy "gibbsenergy" with
          | .error e => .error e
          | .ok v5 =>
            .ok (joinSep "\t" ([pySplitextBase filename] ++ [v1, v2, v3, v4, v5].map pyStr))

/-- `print_energies_short`: the tab-separated line of short mode,
reading only scf_energy, enthalpy and gibbsenergy. -/
def print_energies_short (data : Energies) (filename : String) : Except PyErr String :=
  match getKey data.scf_energy "scf_energy" with
  | .error e => .error e
  | .ok v1 =>
    match getKey data.enthalpy "enthalpy" with
    | .error e => .error e
    | .ok v4 =>
      match getKey data.gibbsenergy "gibbsenergy" with
      | .error e => .error e
      | .ok v5 =>
        .ok (joinSep "\t" ([pySplitextBase filename] ++ [v1, v4, v5].map pyStr))

/-- The body of the batch loop of `parse_all_files` for one file:
extract, then print in the selected mode. -/
def renderFile (full : Bool) (f : String × List String) : Except PyErr String :=
  match extract_data f.2 with
  | .error e => .error e
  | .ok data => if full then print_energies data f.1 else print_energies_short data f.1

/-- `parse_all_files` of extract_energies.py: the batch loop.  The
source has no exception handler, so the first exception aborts the
loop: the result is the list of lines printed before the abort, paired
with the uncaught exception if one occurred. -/
def parse_all_files (files : List (String × List String)) (full : Bool) :
    List String × Option PyErr :=
  match files with
  | [] => ([], none)
  | f :: rest =>
    match renderFile full f with
    | .error e => ([], some e)
    | .ok line =>
      let r := parse_all_files rest full
      (line :: r.1, r.2)

/-! ## The parsed-log object (cclib) -/

/-- The `atomcoords` array of a parsed log: cclib yields a 3-dimensional
array (frames x atoms x 3); the dim2 constructor models the defensive
`ndim` test of `extract_atom_coordinates` for a 2-dimensional array
(a single frame laid out flat). -/
inductive AtomCoords where
  | dim3 (frames : List (List (List Rat)))
  | dim2 (coords : List (List Rat))
deriving DecidableEq, Repr

/-- The parsed-log object the scripts consume (the cclib attributes
they touch): geometry frames, atom count, atomic numbers, and the
optional excited-state attributes.  An absent optional attribute
raises AttributeError on access. -/
structure ParsedLog where
  atomcoords : AtomCoords
  natom : Nat
  atomnos : List Nat
  etenergies : Option (List Rat) := none
  etoscs : Option (List Rat) := none
deriving DecidableEq, Repr

/-- The geometry frames a log exposes, as a single list regardless of
array dimensionality (a 2-dimensional array is one frame). -/
def framesOf : AtomCoords → List (List (List Rat))
  | .dim3 frames => frames
  | .dim2 coords => [coords]

/-- Frame/atom-count coherence of a parsed log, an invariant cclib
guarantees: every frame holds exactly `natom` atom rows. -/
def WellFormedGeom (f : ParsedLog) : Prop :=
  ∀ fr ∈ framesOf f.atomcoords, fr.length = f.natom

/-! ## create_uv_plot.py -/

/-- `get_transitions`: reads `etenergies` and `etoscs` (AttributeError
when absent, in that access order) and pairs them with Python `zip`,
which truncates to the shorter sequence. -/
def get_transitions (file : ParsedLog) : Except PyErr (List (Rat × Rat)) :=
  match file.etenergies with
  | none => .error .attributeError
  | some energies =>
    match file.etoscs with
    | none => .error .attributeError
    | some oscillator_strengths => .ok (List.zip energies oscillator_strengths)

/-- The first list comprehension of `format_transitions`:
`[round(10E6/x[0], 2), round(x[1], 4)]` per transition (10E6 is the
float 10,000,000). -/
def transitions_converted (transitions : List (Rat × Rat)) : List (Rat × Rat) :=
  transitions.map (fun x => (pyRound 2 (10000000 / x.1), pyRound 4 x.2))

/-- `format_transitions`: converted values rendered as
`'{:.2f}'.format(w).rjust(15) + '{:.4f}'.format(o).rjust(15)`. -/
def format_transitions (transitions : List (Rat × Rat)) : List String :=
  (transitions_converted transitions).map
    (fun x => pyRjust 15 (pyFixed 2 x.1) ++ pyRjust 15 (pyFixed 4 x.2))

/-- `write_transitions`: the content written to the .dat file, a header
line then the newline-joined formatted rows. -/
def write_transitions (transitions : List String) : String :=
  "Wavelength (nm)   Osc Strength\n" ++ joinSep "\n" transitions

/-! ## create_adf_esi.py -/

/-- `extract_atom_coordinates`: the last frame when `atomcoords` is
3-dimensional, the whole array otherwise; `[-1]` on an empty axis is an
IndexError. -/
def extract_atom_coordinates (file : ParsedLog) : Except PyErr (List (List Rat)) :=
  match file.atomcoords with
  | .dim3 frames =>
    match frames.getLast? with
    | some fr => .ok fr
    | none => .error .indexError
  | .dim2 coords => .ok coords

/-- The cclib periodic table list `PeriodicTable().element`: index 0
holds None, index z the symbol of element z. -/
def ptElement : List (Option String) :=
  [none,
   some "H", some "He", some "Li", some "Be", some "B", some "C", some "N",
   some "O", some "F", some "Ne", some "Na", some "Mg", some "Al", some "Si",
   some "P", some "S", some "Cl", some "Ar", some "K", some "Ca", some "Sc",
   some "Ti", some "V", some "Cr", some "Mn", some "Fe", some "Co", some "Ni",
   some "Cu", some "Zn", some "Ga", some "Ge", some "As", some "Se", some "Br",
   some "Kr", some "Rb", some "Sr", some "Y", some "Zr", some "Nb", some "Mo",
   some "Tc", some "Ru", some "Rh", some "Pd", some "Ag", some "Cd", some "In",
   some "Sn", some "Sb", some "Te", some "I", some "Xe", some "Cs", some "Ba",
   some "La", some "Ce", some "Pr", some "Nd", some "Pm", some "Sm", some "Eu",
   some "Gd", some "Tb", some "Dy", some "Ho", some "Er", some "Tm", some "Yb",
   some "Lu", some "Hf", some "Ta", some "W", some "Re", some "Os", some "Ir",
   some "Pt", some "Au", some "Hg", some "Tl", some "Pb", some "Bi", some "Po",
   some "At", some "Rn", some "Fr", some "Ra", some "Ac", some "Th", some "Pa",
   some "U", some "Np", some "Pu", some "Am", some "Cm", some "Bk", some "Cf",
   some "Es", some "Fm", some "Md", some "No", some "Lr", some "Rf", some "Db",
   some "Sg", some "Bh", some "Hs", some "Mt", some "Ds", some "Rg", some "Cn",
   some "Nh", some "Fl", some "Mc", some "Lv", some "Ts", some "Og"]

/-- `periodic_table.element[z]`: IndexError outside the table,
AttributeError for index 0 (None has no ljust method). -/
def elementLookup (z : Nat) : Except PyErr String :=
  match ptElement.get? z with
  | none => .error .indexError
  | some none => .error .attributeError
  | some (some s) => .ok s

/-- Total counterpart of `elementLookup` (defaults to ""), used only to
state what the fallible renderer produced once it is known to have
succeeded. -/
def elementSymD (z : Nat) : String :=
  ((ptElement.getD z none).getD "")

/-- `file.atomcoords[-1]` inside `write_cif`: the last frame of a
3-dimensional array (IndexError when empty).  On a 2-dimensional array
the source would take the last ROW and then fail with TypeError when
iterating each of its floats as a coordinate triple; that abort is the
modelled error. -/
def lastFrameQ : AtomCoords → Except PyErr (List (List Rat))
  | .dim3 frames =>
    match frames.getLast? with
    | some fr => .ok fr
    | none => .error .indexError
  | .dim2 _ => .error .typeError

/-- Total counterpart of `lastFrameQ` (defaults to the empty frame). -/
def lastFrameD : AtomCoords → List (List Rat)
  | .dim3 frames => frames.getLastD []
  | .dim2 _ => []

/-- One atom line of `write_cif`:
`element[z].ljust(3) + " ".join('{:,f}'.format(a).rjust(15) ...)`. -/
def atomLine (z : Nat) (row : List Rat) : Except PyErr String :=
  match elementLookup z with
  | .error e => .error e
  | .ok sym =>
    .ok (pyLjust 3 sym ++ joinSep " " (row.map (fun a => pyRjust 15 (pyFormatCommaF a))))

/-- Total counterpart of `atomLine`. -/
def atomLineD (z : Nat) (row : List Rat) : String :=
  pyLjust 3 (elementSymD z) ++ joinSep " " (row.map (fun a => pyRjust 15 (pyFormatCommaF a)))

/-- The inner atom loop of `write_cif`: row j of the frame is rendered
with atomic number `atoms[i][j]` (positionally: head of the remaining
numbers), IndexError when the numbers run out. -/
def atomLines : List Nat → List (List Rat) → Except PyErr (List String)
  | _, [] => .ok []
  | [], _ :: _ => .error .indexError
  | z :: zs, row :: rows =>
    match atomLine z row with
    | .error e => .error e
    | .ok l =>
      match atomLines zs rows with
      | .error e => .error e
      | .ok ls => .ok (l :: ls)

/-- Total counterpart of `atomLines`: index-paired rendering. -/
def atomLinesD (zs : List Nat) (coords : List (List Rat)) : List String :=
  (List.zip zs coords).map (fun p => atomLineD p.1 p.2)

/-- The outer structure loop of `write_cif`: for structure i (its last
frame, its atomic numbers, its raw file name, paired positionally as
the source pairs them by the shared index i) emit the label line, the
atom lines, and the per-molecule "\n" element the source appends. -/
def write_cif_body :
    List (List (List Rat)) → List (List Nat) → List String → Except PyErr (List String)
  | [], _, _ => .ok []
  | _ :: _, [], _ => .error .indexError
  | _ :: _, _ :: _, [] => .error .indexError
  | coords :: cs, zs :: atomsRest, name :: namesRest =>
    match atomLines zs coords with
    | .error e => .error e
    | .ok lines =>
      match write_cif_body cs atomsRest namesRest with
      | .error e => .error e
      | .ok rest => .ok (pySplitextBase name :: lines ++ ["\n"] ++ rest)

/-- The `file.atomcoords[-1]` collection loop at the top of
`write_cif`. -/
def mapLastFrames : List ParsedLog → Except PyErr (List (List (List Rat)))
  | [] => .ok []
  | f :: fs =>
    match lastFrameQ f.atomcoords with
    | .error e => .error e
    | .ok fr =>
      match mapLastFrames fs with
      | .error e => .error e
      | .ok rest => .ok (fr :: rest)

/-- `write_cif`: the content written to the single output file (whose
name is the -f configuration option): the flat `output` list of labels,
atom lines and per-molecule "\n" elements, plus the final "\n", joined
with newlines. -/
def write_cif (parsed_files : List ParsedLog) (list_of_raw_files : List String) :
    Except PyErr String :=
  match mapLastFrames parsed_files with
  | .error e => .error e
  | .ok coordinates =>
    match write_cif_body coordinates (parsed_files.map (fun f => f.atomnos))
        list_of_raw_files with
    | .error e => .error e
    | .ok output => .ok (joinSep "\n" (output ++ ["\n"]))

/-- The rendered text block of one structure: label line followed by
its atom lines, newline-joined. -/
def blockD (zs : List Nat) (name : String) (coords : List (List Rat)) : String :=
  joinSep "\n" (pySplitextBase name :: atomLinesD zs coords)

/-! ## Concrete inputs used by witnesses and counterexamples -/

/-- A parsable Gaussian-style log: all five markers present. -/
def goodLines1 : List String :=
  [" SCF Done:  E(RB3LYP) =  -1.5  A.U.",
   " Zero-point correction=  0.5 (Hartree/Particle)",
   " Thermal correction to Energy=  0.25",
   " Thermal correction to Enthalpy=  0.125",
   " Thermal correction to Gibbs Free Energy=  0.0625"]

/-- An unparsable log: the SCF marker line is truncated, so
`line.split()[4]` raises IndexError. -/
def badLines2 : List String :=
  [" SCF Done mangled"]

/-- A second parsable log. -/
def goodLines3 : List String :=
  [" SCF Done:  E(RB3LYP) =  -2.5  A.U.",
   " Zero-point correction=  0.75 (Hartree/Particle)",
   " Thermal correction to Energy=  0.5",
   " Thermal correction to Enthalpy=  0.25",
   " Thermal correction to Gibbs Free Energy=  0.125"]

/-- A 3-file batch whose second file is unparsable. -/
def batch3 : List (String × List String) :=
  [("f1.log", goodLines1), ("f2.log", badLines2), ("f3.log", goodLines3)]

/-- An SCF marker line with value -100.5. -/
def scfL1 : String := " SCF Done:  E(RB3LYP) =  -100.5  A.U."

/-- A second SCF marker line with value -200.25. -/
def scfL2 : String := " SCF Done:  E(RB3LYP) =  -200.25  A.U."

/-- The dictionary extracted from a log holding `scfL1` then `scfL2`. -/
def eC9 : Energies := { scf_energy := some (-801 / 4) }

/-- A record missing zpve (and nothing else the modes read). -/
def enC3 : Energies :=
  { scf_energy := some 1, zpve := none, energy := some 2,
    enthalpy := some 3, gibbsenergy := some 4 }

/-- A two-frame trajectory log with one atom. -/
def exLogC1 : ParsedLog :=
  { atomcoords := AtomCoords.dim3 [[[0, 0, 0]], [[1, 2, 3]]],
    natom := 1, atomnos := [1] }

/-- A log whose excitation sequences have unequal lengths (2 and 1). -/
def uvLogUneq : ParsedLog :=
  { atomcoords := AtomCoords.dim3 [], natom := 0, atomnos := [],
    etenergies := some [100, 200], etoscs := some [5] }

/-- A log with no excited-state attributes at all. -/
def uvLogNoEt : ParsedLog :=
  { atomcoords := AtomCoords.dim3 [], natom := 0, atomnos := [] }

/-- A log with five index-paired transitions. -/
def uvLog5 : ParsedLog :=
  { atomcoords := AtomCoords.dim3 [], natom := 0, atomnos := [],
    etenergies := some [28300, 25000, 40000, 20000, 50000],
    etoscs := some [26667 / 100000, 0, 1 / 2, 3 / 4, 1] }

/-- A one-atom hydrogen structure (two-frame trajectory). -/
def cifLogA : ParsedLog :=
  { atomcoords := AtomCoords.dim3 [[[0, 0, 0]], [[1 / 2, 0, -3 / 2]]],
    natom := 1, atomnos := [1] }

/-- A one-atom oxygen structure with a large coordinate. -/
def cifLogB : ParsedLog :=
  { atomcoords := AtomCoords.dim3 [[[1500, 2, 3]]],
    natom := 1, atomnos := [8] }

/-- The raw file names of the two-structure cif batch. -/
def cifNames : List String := ["a.out", "b.out"]

/-! ## Helper lemmas -/

theorem strAppendAssoc (a b c : String) : a ++ b ++ c = a ++ (b ++ c) := by
  cases a with
  | mk da =>
    cases b with
    | mk db =>
      cases c with
      | mk dc =>
        show String.mk (da ++ db ++ dc) = String.mk (da ++ (db ++ dc))
        rw [List.append_assoc]

theorem joinSep_cons_of_ne (sep x : String) (ys : List String) (h : ys ≠ []) :
    joinSep sep (x :: ys) = x ++ sep ++ joinSep sep ys := by
  cases ys with
  | nil => exact absurd rfl h
  | cons y ys' => rfl

theorem joinSep_append (sep : String) :
    ∀ (xs ys : List String), xs ≠ [] → ys ≠ [] →
      joinSep sep (xs ++ ys) = joinSep sep xs ++ sep ++ joinSep sep ys := by
  intro xs
  induction xs with
  | nil => intro ys hx _; exact absurd rfl hx
  | cons x xs ih =>
    intro ys hx hy
    cases xs with
    | nil =>
      rw [List.singleton_append, joinSep_cons_of_ne sep x ys hy]
      rfl
    | cons x2 xs' =>
      have h1 : (x2 :: xs') ++ ys ≠ [] := by simp
      rw [List.cons_append, joinSep_cons_of_ne sep x _ h1,
        joinSep_cons_of_ne sep x (x2 :: xs') (by simp),
        ih ys (by simp) hy, strAppendAssoc, strAppendAssoc, strAppendAssoc,
        strAppendAssoc, strAppendAssoc x sep]

/-! ## C1: geometry extraction returns the last frame -/

/-- C1: for every well-formed ParsedLog with at least one geometry
frame, `extract_atom_coordinates` returns exactly the last frame, never
an earlier one, and the atom count of the returned frame equals the
source's `natom`; a single-frame log is the same last-frame selection
(the only branch in the source distinguishes array dimensionality, an
encoding of the frame list, never calculation-type metadata). -/
theorem c1_last_frame (file : ParsedLog) (h : framesOf file.atomcoords ≠ [])
    (hw : WellFormedGeom file) :
    extract_atom_coordinates file = .ok ((framesOf file.atomcoords).getLast h) ∧
      ((framesOf file.atomcoords).getLast h).length = file.natom := by
  refine ⟨?_, hw _ (List.getLast_mem h)⟩
  cases file with
  | mk ac natom nos ee eo =>
    cases ac with
    | dim3 frames =>
      cases frames with
      | nil => exact absurd rfl h
      | cons f fs =>
        show (match (f :: fs).getLast? with
          | some fr => Except.ok fr
          | none => Except.error PyErr.indexError) = _
        rw [List.getLast?_eq_getLast (f :: fs) h]
        rfl
    | dim2 coords => rfl

/-- C1 witness: on a concrete two-frame log the extraction yields the
second frame with the declared atom count. -/
theorem c1_witness :
    extract_atom_coordinates exLogC1 =
        .ok ((framesOf exLogC1.atomcoords).getLast (by decide)) ∧
      ((framesOf exLogC1.atomcoords).getLast (by decide)).length = exLogC1.natom :=
  c1_last_frame exLogC1 (by decide) (by unfold WellFormedGeom; decide)

/-! ## C4: transition extraction on absent sequences -/

/-- C4 (amended): `get_transitions` fails with the missing-attribute
error exactly when the excitation-energy or oscillator-strength
sequence is absent; when BOTH are present it always succeeds, pairing
positionally up to the shorter sequence (Python zip truncation) with no
equal-length requirement. -/
theorem c4_absent_sequences (log : ParsedLog) :
    ((log.etenergies = none ∨ log.etoscs = none) →
      get_transitions log = .error .attributeError) ∧
    (∀ es os, log.etenergies = some es → log.etoscs = some os →
      get_transitions log = .ok (List.zip es os)) := by
  constructor
  · intro h
    rcases h with h | h <;> cases he : log.etenergies <;>
      simp [get_transitions, he] <;> cases ho : log.etoscs <;>
      simp_all [get_transitions]
  · intro es os he ho
    simp [get_transitions, he, ho]

/-- C4 witness: a log lacking both excited-state attributes fails with
the missing-attribute error. -/
theorem c4_witness : get_transitions uvLogNoEt = .error .attributeError :=
  (c4_absent_sequences uvLogNoEt).1 (Or.inl rfl)

/-- C4 counterexample: on unequal-length sequences (2 energies, 1
oscillator strength) extraction SUCCEEDS with the truncated pairing,
refuting the claim that it succeeds only on equal lengths. -/
theorem c4_counterexample :
    get_transitions uvLogUneq = .ok [(100, 5)] ∧
      uvLogUneq.etenergies = some [100, 200] ∧ uvLogUneq.etoscs = some [5] :=
  ⟨rfl, rfl, rfl⟩

/-! ## C7: index pairing on equal-length sequences -/

/-- C7: on equal-length sequences of length N, `get_transitions`
produces exactly N records, the i-th pairing the i-th energy with the
i-th oscillator strength, in source order with no re-sorting. -/
theorem c7_index_pairing (log : ParsedLog) (es os : List Rat)
    (he : log.etenergies = some es) (ho : log.etoscs = some os)
    (hlen : es.length = os.length) :
    get_transitions log = .ok (List.zip es os) ∧
      (List.zip es os).length = es.length ∧
      ∀ (i : Nat) (h1 : i < es.length) (h2 : i < os.length)
        (hz : i < (List.zip es os).length),
        (List.zip es os).get ⟨i, hz⟩ = (es.get ⟨i, h1⟩, os.get ⟨i, h2⟩) := by
  refine ⟨by simp [get_transitions, he, ho], by simp [List.length_zip, hlen], ?_⟩
  intro i h1 h2 hz
  simp [List.getElem_zip]

/-- C7 witness: a concrete five-transition log yields exactly five
index-paired records in order. -/
theorem c7_witness :
    get_transitions uvLog5 =
      .ok (List.zip [28300, 25000, 40000, 20000, 50000]
        [26667 / 100000, 0, 1 / 2, 3 / 4, 1]) ∧
      (List.zip [(28300 : Rat), 25000, 40000, 20000, 50000]
        [(26667 / 100000 : Rat), 0, 1 / 2, 3 / 4, 1]).length = 5 :=
  ⟨(c7_index_pairing uvLog5 [28300, 25000, 40000, 20000, 50000]
      [26667 / 100000, 0, 1 / 2, 3 / 4, 1] rfl rfl rfl).1,
    (c7_index_pairing uvLog5 [28300, 25000, 40000, 20000, 50000]
      [26667 / 100000, 0, 1 / 2, 3 / 4, 1] rfl rfl rfl).2.1⟩

/-! ## C5: wavenumber to wavelength conversion -/

/-- C5: every transition is converted by wavelength = 10,000,000
divided by the wavenumber rounded to 2 decimals and oscillator strength
rounded to 4 decimals; in particular 28,300 inverse centimeters yields
353.36 nanometers and 0.26667 yields 0.2667. -/
theorem c5_unit_conversion :
    (∀ (ts : List (Rat × Rat)) (t : Rat × Rat), t ∈ ts →
      (pyRound 2 (10000000 / t.1), pyRound 4 t.2) ∈ transitions_converted ts) ∧
    transitions_converted [(28300, 26667 / 100000)] =
      [(35336 / 100, 2667 / 10000)] := by
  constructor
  · intro ts t ht
    exact List.mem_map_of_mem _ ht
  · with_unfolding_all rfl

/-- C5 witness: the conversion of the concrete transition (28300,
0.26667) is a member of the converted list. -/
theorem c5_witness :
    (pyRound 2 (10000000 / (28300 : Rat)), pyRound 4 ((26667 / 100000 : Rat))) ∈
      transitions_converted [(28300, 26667 / 100000)] := by
  have h := c5_unit_conversion.1 [(28300, 26667 / 100000)]
    (28300, 26667 / 100000) (List.mem_singleton_self _)
  simpa using h

/-! ## C6: the .dat report layout -/

/-- C6 (amended): the .dat content is the header line
"Wavelength (nm)   Osc Strength" followed by one row per transition,
with the wavelength and the oscillator strength each right-justified to
width 15 (the source uses rjust(15), not the width 10 the claim
states). -/
theorem c6_dat_layout (ts : List (Rat × Rat)) :
    write_transitions (format_transitions ts) =
      "Wavelength (nm)   Osc Strength\n" ++
        joinSep "\n" (ts.map (fun t =>
          pyRjust 15 (pyFixed 2 (pyRound 2 (10000000 / t.1))) ++
            pyRjust 15 (pyFixed 4 (pyRound 4 t.2)))) := by
  unfold write_transitions format_transitions transitions_converted
  rw [List.map_map]
  rfl

/-- C6 counterexample: the rendered row for (28300, 0.26667) is 30
characters wide (two rjust(15) fields), not the two width-10 fields the
claim describes. -/
theorem c6_counterexample :
    format_transitions [(28300, 26667 / 100000)] =
        ["         353.36         0.2667"] ∧
      "         353.36         0.2667" ≠
        pyRjust 10 "353.36" ++ pyRjust 10 "0.2667" ∧
      ("         353.36         0.2667").length = 30 := by
  refine ⟨by with_unfolding_all rfl, by decide, by decide⟩

/-! ## C3: full versus short thermochemistry rendering -/

/-- C3: rendering a record missing zpve in full mode fails with the
missing-key error for "zpve", while short mode on the same record
succeeds and emits exactly the name, scf_energy, enthalpy and
gibbsenergy fields, omitting zpve and energy. -/
theorem c3_full_vs_short (data : Energies) (filename : String) (s h g : Rat)
    (hz : data.zpve = none) (hs : data.scf_energy = some s)
    (hh : data.enthalpy = some h) (hg : data.gibbsenergy = some g) :
    print_energies data filename = .error (.keyError "zpve") ∧
      print_energies_short data filename =
        .ok (joinSep "\t" [pySplitextBase filename, pyStr s, pyStr h, pyStr g]) := by
  constructor
  · simp [print_energies, getKey, hz, hs]
  · simp [print_energies_short, getKey, hs, hh, hg]

/-- C3 witness: the concrete record with zpve absent fails in full mode
and renders the three short-mode fields. -/
theorem c3_witness :
    print_energies enC3 "x.log" = .error (.keyError "zpve") ∧
      print_energies_short enC3 "x.log" =
        .ok (joinSep "\t" [pySplitextBase "x.log", pyStr 1, pyStr 3, pyStr 4]) :=
  c3_full_vs_short enC3 "x.log" 1 3 4 rfl rfl rfl rfl

/-! ## C9: later marker occurrences overwrite earlier values -/

theorem markerField_setField_ne (m m' : Marker) (v : Option Rat) (e : Energies)
    (h : m ≠ m') : markerField m (setField m' v e) = markerField m e := by
  cases m <;> cases m' <;> simp_all [markerField, setField]

theorem markerField_setField_self (m : Marker) (v : Option Rat) (e : Energies) :
    markerField m (setField m v e) = v := by
  cases m <;> simp [markerField, setField]

theorem applyMarker_ok_preserve (m m' : Marker) (line : String) (e e' : Energies)
    (hap : applyMarker m' line e = .ok e')
    (hcond : m' = m → markerMatches m line = false) :
    markerField m e' = markerField m e := by
  unfold applyMarker at hap
  cases hm : markerMatches m' line with
  | false =>
    rw [hm] at hap
    simp at hap
    rw [hap]
  | true =>
    rw [hm] at hap
    have hne : m ≠ m' := by
      intro hq
      rw [hq] at hcond
      rw [hcond rfl] at hm
      cases hm
    cases hv : markerValue m' line with
    | error err => rw [hv] at hap; simp at hap
    | ok v =>
      rw [hv] at hap
      simp at hap
      rw [← hap, markerField_setField_ne m m' _ _ hne]

theorem applyMarker_ok_set (m : Marker) (line : String) (e e' : Energies)
    (hap : applyMarker m line e = .ok e') (hm : markerMatches m line = true) :
    markerField m e' = excToOption (markerValue m line) := by
  unfold applyMarker at hap
  rw [hm] at hap
  simp at hap
  cases hv : markerValue m line with
  | error err => rw [hv] at hap; simp at hap
  | ok v =>
    rw [hv] at hap
    simp at hap
    rw [← hap, markerField_setField_self]
    simp [excToOption, hv]

theorem lineStep_destruct (e e' : Energies) (line : String)
    (h : lineStep e line = .ok e') :
    ∃ e1 e2 e3 e4,
      applyMarker .scf line e = .ok e1 ∧ applyMarker .zpve line e1 = .ok e2 ∧
      applyMarker .energy line e2 = .ok e3 ∧
      applyMarker .enthalpy line e3 = .ok e4 ∧
      applyMarker .gibbs line e4 = .ok e' := by
  unfold lineStep at h
  cases h1 : applyMarker .scf line e with
  | error err => rw [h1] at h; simp at h
  | ok e1 =>
    rw [h1] at h
    simp at h
    cases h2 : applyMarker .zpve line e1 with
    | error err => rw [h2] at h; simp at h
    | ok e2 =>
      rw [h2] at h
      simp at h
      cases h3 : applyMarker .energy line e2 with
      | error err => rw [h3] at h; simp at h
      | ok e3 =>
        rw [h3] at h
        simp at h
        cases h4 : applyMarker .enthalpy line e3 with
        | error err => rw [h4] at h; simp at h
        | ok e4 =>
          rw [h4] at h
          simp at h
          exact ⟨e1, e2, e3, e4, rfl, h2, h3, h4, h⟩

theorem lineStep_preserve (m : Marker) (line : String) (e e' : Energies)
    (hm : markerMatches m line = false) (h : lineStep e line = .ok e') :
    markerField m e' = markerField m e := by
  obtain ⟨e1, e2, e3, e4, h1, h2, h3, h4, h5⟩ := lineStep_destruct e e' line h
  have k1 := applyMarker_ok_preserve m .scf line _ _ h1 (fun _ => hm)
  have k2 := applyMarker_ok_preserve m .zpve line _ _ h2 (fun _ => hm)
  have k3 := applyMarker_ok_preserve m .energy line _ _ h3 (fun _ => hm)
  have k4 := applyMarker_ok_preserve m .enthalpy line _ _ h4 (fun _ => hm)
  have k5 := applyMarker_ok_preserve m .gibbs line _ _ h5 (fun _ => hm)
  exact k5.trans (k4.trans (k3.trans (k2.trans k1)))

theorem lineStep_set (m : Marker) (line : String) (e e' : Energies)
    (hm : markerMatches m line = true) (h : lineStep e line = .ok e') :
    markerField m e' = excToOption (markerValue m line) := by
  obtain ⟨e1, e2, e3, e4, h1, h2, h3, h4, h5⟩ := lineStep_destruct e e' line h
  cases m with
  | scf =>
    have k := applyMarker_ok_set .scf line _ _ h1 hm
    have p2 := applyMarker_ok_preserve .scf .zpve line _ _ h2 (fun hq => nomatch hq)
    have p3 := applyMarker_ok_preserve .scf .energy line _ _ h3 (fun hq => nomatch hq)
    have p4 := applyMarker_ok_preserve .scf .enthalpy line _ _ h4 (fun hq => nomatch hq)
    have p5 := applyMarker_ok_preserve .scf .gibbs line _ _ h5 (fun hq => nomatch hq)
    exact p5.trans (p4.trans (p3.trans (p2.trans k)))
  | zpve =>
    have p1 := applyMarker_ok_preserve .zpve .scf line _ _ h1 (fun hq => nomatch hq)
    have k := applyMarker_ok_set .zpve line _ _ h2 hm
    have p3 := applyMarker_ok_preserve .zpve .energy line _ _ h3 (fun hq => nomatch hq)
    have p4 := applyMarker_ok_preserve .zpve .enthalpy line _ _ h4 (fun hq => nomatch hq)
    have p5 := applyMarker_ok_preserve .zpve .gibbs line _ _ h5 (fun hq => nomatch hq)
    exact p5.trans (p4.trans (p3.trans k))
  | energy =>
    have k := applyMarker_ok_set .energy line _ _ h3 hm
    have p4 := applyMarker_ok_preserve .energy .enthalpy line _ _ h4 (fun hq => nomatch hq)
    have p5 := applyMarker_ok_preserve .energy .gibbs line _ _ h5 (fun hq => nomatch hq)
    exact p5.trans (p4.trans k)
  | enthalpy =>
    have k := applyMarker_ok_set .enthalpy line _ _ h4 hm
    have p5 := applyMarker_ok_preserve .enthalpy .gibbs line _ _ h5 (fun hq => nomatch hq)
    exact p5.trans k
  | gibbs =>
    exact applyMarker_ok_set .gibbs line _ _ h5 hm

theorem extractFrom_cons_ok (e e1 : Energies) (l : String) (ls : List String)
    (h : lineStep e l = .ok e1) : extractFrom e (l :: ls) = extractFrom e1 ls := by
  show (match lineStep e l with
    | Except.error err => Except.error err
    | Except.ok e2 => extractFrom e2 ls : Except PyErr Energies) = _
  rw [h]

theorem extractFrom_cons_err (e : Energies) (err : PyErr) (l : String)
    (ls : List String) (h : lineStep e l = .error err) :
    extractFrom e (l :: ls) = .error err := by
  show (match lineStep e l with
    | Except.error err => Except.error err
    | Except.ok e2 => extractFrom e2 ls : Except PyErr Energies) = _
  rw [h]

theorem extractFrom_append_ok (xs : List String) :
    ∀ (ys : List String) (e e' : Energies), extractFrom e xs = .ok e' →
      extractFrom e (xs ++ ys) = extractFrom e' ys := by
  induction xs with
  | nil =>
    intro ys e e' h
    simp [extractFrom] at h
    rw [List.nil_append, h]
  | cons l ls ih =>
    intro ys e e' h
    rw [List.cons_append]
    cases h1 : lineStep e l with
    | error err => rw [extractFrom_cons_err e err l ls h1] at h; simp at h
    | ok e1 =>
      rw [extractFrom_cons_ok e e1 l ls h1] at h
      rw [extractFrom_cons_ok e e1 l (ls ++ ys) h1]
      exact ih ys e1 e' h

theorem extractFrom_append_err (xs : List String) :
    ∀ (ys : List String) (e : Energies) (err : PyErr),
      extractFrom e xs = .error err →
      extractFrom e (xs ++ ys) = .error err := by
  induction xs with
  | nil =>
    intro ys e err h
    simp [extractFrom] at h
  | cons l ls ih =>
    intro ys e err h
    rw [List.cons_append]
    cases h1 : lineStep e l with
    | error e2 =>
      rw [extractFrom_cons_err e e2 l ls h1] at h
      injection h with h
      rw [← h]
      exact extractFrom_cons_err e e2 l (ls ++ ys) h1
    | ok e1 =>
      rw [extractFrom_cons_ok e e1 l ls h1] at h
      rw [extractFrom_cons_ok e e1 l (ls ++ ys) h1]
      exact ih ys e1 err h

theorem extractFrom_no_match (m : Marker) :
    ∀ (ls : List String) (e0 e : Energies),
      (∀ l ∈ ls, markerMatches m l = false) →
      extractFrom e0 ls = .ok e → markerField m e = markerField m e0 := by
  intro ls
  induction ls with
  | nil =>
    intro e0 e _ h
    simp [extractFrom] at h
    rw [h]
  | cons l ls ih =>
    intro e0 e hall h
    unfold extractFrom at h
    cases h1 : lineStep e0 l with
    | error err => rw [h1] at h; simp at h
    | ok e1 =>
      rw [h1] at h
      simp at h
      have hstep := lineStep_preserve m l e0 e1 (hall l (by simp)) h1
      have htail := ih e1 e (fun x hx => hall x (by simp [hx])) h
      exact htail.trans hstep

/-- C9: for every marker field, when a matching line is followed only
by lines that do not match that marker, a successful extraction ends
with the field holding the value parsed from that line: each later
occurrence of a marker overwrites the earlier value. -/
theorem c9_last_marker_wins (l1 l2 : List String) (line : String) (m : Marker)
    (e : Energies) (hm : markerMatches m line = true)
    (hl2 : ∀ l ∈ l2, markerMatches m l = false)
    (hex : extract_data (l1 ++ line :: l2) = .ok e) :
    markerField m e = excToOption (markerValue m line) := by
  unfold extract_data at hex
  cases h1 : extractFrom {} l1 with
  | error err =>
    rw [extractFrom_append_err l1 (line :: l2) _ err h1] at hex
    simp at hex
  | ok e1 =>
    rw [extractFrom_append_ok l1 (line :: l2) _ e1 h1] at hex
    cases h2 : lineStep e1 line with
    | error err => rw [extractFrom_cons_err e1 err line l2 h2] at hex; simp at hex
    | ok e2 =>
      rw [extractFrom_cons_ok e1 e2 line l2 h2] at hex
      have hfield := extractFrom_no_match m l2 e2 e hl2 hex
      rw [hfield]
      exact lineStep_set m line e1 e2 hm h2

/-- C9 witness: a log containing two SCF marker lines extracts the
value of the second (-200.25), the first (-100.5) having been
overwritten. -/
theorem c9_witness :
    markerField Marker.scf eC9 = excToOption (markerValue Marker.scf scfL2) :=
  c9_last_marker_wins [scfL1] [] scfL2 Marker.scf eC9 (by decide)
    (fun l hl => absurd hl (List.not_mem_nil l)) (by with_unfolding_all rfl)

/-! ## C2: batch behaviour on a per-file extraction error -/

/-- C2 (amended): the batch loop of parse_all_files has no exception
handler, so the first per-file extraction error aborts the whole run:
output lines exist exactly for the files preceding the failing one, in
order, and none for any later file. -/
theorem c2_abort_on_error (pre rest : List (String × List String))
    (bad : String × List String) (full : Bool) (outs : List String) (e : PyErr)
    (hpre : List.Forall₂ (fun f o => renderFile full f = .ok o) pre outs)
    (hbad : renderFile full bad = .error e) :
    parse_all_files (pre ++ bad :: rest) full = (outs, some e) := by
  induction hpre with
  | nil =>
    rw [List.nil_append]
    show (match renderFile full bad with
      | .error e => ([], some e)
      | .ok line =>
        let r := parse_all_files rest full
        (line :: r.1, r.2) : List String × Option PyErr) = _
    rw [hbad]
  | cons h1 h2 ih =>
    rw [List.cons_append]
    rename_i a b as bs
    show (match renderFile full a with
      | .error e => ([], some e)
      | .ok line =>
        let r := parse_all_files (as ++ bad :: rest) full
        (line :: r.1, r.2) : List String × Option PyErr) = _
    rw [h1, ih]

/-- C2 counterexample: on the 3-file batch whose second file is
unparsable, only ONE output row exists (file 1) and the run ends with
the uncaught IndexError; no output is produced for file 3, refuting the
continue-on-error claim. -/
theorem c2_counterexample :
    (parse_all_files batch3 true).1.length = 1 ∧
      (parse_all_files batch3 true).2 = some PyErr.indexError := by
  constructor
  · with_unfolding_all rfl
  · with_unfolding_all rfl

/-- C2 witness: the amended abort behaviour at the concrete 3-file
batch: the full result is the single file-1 row plus the error. -/
theorem c2_witness :
    parse_all_files batch3 true =
      (["f1\t-3/2\t1/2\t1/4\t1/8\t1/16"], some PyErr.indexError) :=
  c2_abort_on_error [("f1.log", goodLines1)] [("f3.log", goodLines3)]
    ("f2.log", badLines2) true ["f1\t-3/2\t1/2\t1/4\t1/8\t1/16"]
    PyErr.indexError
    (List.Forall₂.cons (by with_unfolding_all rfl) List.Forall₂.nil)
    (by with_unfolding_all rfl)

/-! ## C10: comma thousands grouping -/

theorem mem_group3 (ds : List Char) :
    ',' ∈ group3 ds ↔ ',' ∈ ds ∨ 3 < ds.length := by
  match ds with
  | [] => simp [group3]
  | [a] => simp [group3]
  | [a, b] => simp [group3]
  | [a, b, c] => simp [group3]
  | a :: b :: c :: d :: rest =>
    have hlen : 3 < (a :: b :: c :: d :: rest).length := by simp
    simp [group3, hlen]

theorem natDigitsLE_mem_lt (fuel : Nat) :
    ∀ (n d : Nat), d ∈ natDigitsLE fuel n → d < 10 := by
  induction fuel with
  | zero => intro n d h; simp [natDigitsLE] at h
  | succ f ih =>
    intro n d h
    cases n with
    | zero => simp [natDigitsLE] at h
    | succ n' =>
      simp only [natDigitsLE, List.mem_cons] at h
      rcases h with h | h
      · rw [h]; exact Nat.mod_lt _ (by omega)
      · exact ih _ _ h

theorem comma_not_mem_digitCharsLE (n : Nat) : ',' ∉ digitCharsLE n := by
  intro h
  unfold digitCharsLE at h
  by_cases h0 : n = 0
  · rw [if_pos h0] at h
    simp at h
  · rw [if_neg h0] at h
    obtain ⟨d, hd, hdc⟩ := List.mem_map.mp h
    have hlt := natDigitsLE_mem_lt n n d hd
    have : ∀ d : Nat, d < 10 → Nat.digitChar d ≠ ',' := by decide
    exact this d hlt hdc

theorem comma_not_mem_natChars (n : Nat) : ',' ∉ natChars n := by
  intro h
  rw [natChars, List.mem_reverse] at h
  exact comma_not_mem_digitCharsLE n h

theorem natDigitsLE_len_le (fuel : Nat) :
    ∀ (n k : Nat), n ≤ fuel → ((natDigitsLE fuel n).length ≤ k ↔ n < 10 ^ k) := by
  induction fuel with
  | zero =>
    intro n k h
    have : n = 0 := by omega
    rw [this]
    simp [natDigitsLE]
  | succ f ih =>
    intro n k h
    cases n with
    | zero =>
      simp [natDigitsLE]
    | succ n' =>
      have hf : (n' + 1) / 10 ≤ f := by
        have := Nat.div_lt_self (Nat.succ_pos n') (by norm_num : 1 < 10)
        omega
      cases k with
      | zero =>
        simp [natDigitsLE]
      | succ k' =>
        simp only [natDigitsLE, List.length_cons]
        rw [Nat.succ_le_succ_iff, ih _ k' hf, pow_succ,
          Nat.div_lt_iff_lt_mul (by norm_num : 0 < 10)]

theorem digitCharsLE_len_le3 (n : Nat) :
    (digitCharsLE n).length ≤ 3 ↔ n < 1000 := by
  by_cases h0 : n = 0
  · rw [h0]; simp [digitCharsLE]
  · rw [digitCharsLE, if_neg h0, List.length_map]
    have := natDigitsLE_len_le n n 3 le_rfl
    norm_num at this
    exact this

theorem comma_mem_fixed_iff (m : Nat) (signStr : String)
    (hsign : ',' ∉ signStr.data) :
    ',' ∈ (signStr ++
        String.mk ((group3 (digitCharsLE (m / 10 ^ 6))).reverse) ++ "." ++
        String.mk (fracChars 6 (m % 10 ^ 6))).data ↔
      1000 * 10 ^ 6 ≤ m := by
  have hmk : ∀ cs : List Char, (String.mk cs).data = cs := fun _ => rfl
  rw [String.data_append, String.data_append, String.data_append]
  have hdot : ',' ∉ (".").data := by decide
  have hfrac : ',' ∉ (String.mk (fracChars 6 (m % 10 ^ 6))).data := by
    rw [hmk]
    intro h
    rcases List.mem_append.mp h with h | h
    · rcases List.mem_replicate.mp h with ⟨-, h⟩
      cases h
    · exact comma_not_mem_natChars _ h
  simp only [List.mem_append, hmk]
  constructor
  · intro h
    rcases h with ((h | h) | h) | h
    · exact absurd h hsign
    · rw [List.mem_reverse, mem_group3] at h
      rcases h with h | h
      · exact absurd h (comma_not_mem_digitCharsLE _)
      · have hlen : ¬ m / 10 ^ 6 < 1000 := by
          intro hc
          exact absurd ((digitCharsLE_len_le3 _).mpr hc) (by omega)
        rw [Nat.not_lt] at hlen
        calc 1000 * 10 ^ 6 ≤ m / 10 ^ 6 * 10 ^ 6 := by
              exact Nat.mul_le_mul_right _ hlen
          _ ≤ m := Nat.div_mul_le_self m _
    · exact absurd h hdot
    · exact absurd h hfrac
  · intro h
    have hge : 1000 ≤ m / 10 ^ 6 :=
      (Nat.le_div_iff_mul_le (by norm_num : 0 < 10 ^ 6)).mpr h
    have hlen : ¬ (digitCharsLE (m / 10 ^ 6)).length ≤ 3 := by
      rw [digitCharsLE_len_le3]
      omega
    refine Or.inl (Or.inl (Or.inr ?_))
    rw [List.mem_reverse, mem_group3]
    right
    omega

/-- C10 (amended): the coordinate token emitted by `'{:,f}'` contains a
comma thousands separator exactly when the COORDINATE ROUNDED TO SIX
DECIMALS has absolute value at least 1000; in particular every
coordinate of absolute value at least 1000 gets a comma, but a
coordinate just below 1000 that rounds up to 1000.000000 also gets one,
so "below 1000 implies plain decimal" fails at the rounding boundary. -/
theorem c10_comma_iff (a : Rat) :
    ',' ∈ (pyFormatCommaF a).data ↔ 1000 ≤ |pyRound 6 a| := by
  simp only [pyFormatCommaF, pyRound]
  rw [comma_mem_fixed_iff (roundHalfEven (a * 10 ^ 6)).natAbs
    (if roundHalfEven (a * 10 ^ 6) < 0 then "-" else "")
    (by by_cases hc : roundHalfEven (a * 10 ^ 6) < 0 <;> simp [hc])]
  rw [abs_div]
  rw [show |(10 : Rat) ^ 6| = 10 ^ 6 by norm_num]
  rw [le_div_iff₀ (by norm_num : (0 : Rat) < 10 ^ 6)]
  rw [show ((1000 : Rat) * 10 ^ 6) = ((1000 * 10 ^ 6 : Nat) : Rat) by norm_num]
  rw [show |((roundHalfEven (a * 10 ^ 6) : Int) : Rat)| =
    (((roundHalfEven (a * 10 ^ 6)).natAbs : Nat) : Rat) by
      rw [Int.cast_natAbs, Int.cast_abs]]
  rw [Nat.cast_le]

/-- C10 counterexample: the coordinate 999.9999996 has absolute value
below 1000, yet its emitted token is "1,000.000000", which contains a
comma: the claim that coordinates below 1000 are emitted as plain
fixed-point decimals is false at the rounding boundary. -/
theorem c10_counterexample :
    pyFormatCommaF (9999999996 / 10 ^ 7) = "1,000.000000" ∧
      ',' ∈ (pyFormatCommaF (9999999996 / 10 ^ 7)).data ∧
      |(9999999996 / 10 ^ 7 : Rat)| < 1000 := by
  have h : pyFormatCommaF (9999999996 / 10 ^ 7) = "1,000.000000" := by
    with_unfolding_all rfl
  refine ⟨h, ?_, ?_⟩
  · rw [h]; decide
  · rw [abs_of_pos (by norm_num)]; norm_num

/-! ## C8: the multi-structure concatenation layout -/

theorem elementLookup_ok (z : Nat) (s : String) (h : elementLookup z = .ok s) :
    elementSymD z = s := by
  unfold elementLookup at h
  unfold elementSymD
  rw [List.getD_eq_getElem?_getD, ← List.get?_eq_getElem?]
  cases hq : ptElement.get? z with
  | none => rw [hq] at h; simp at h
  | some o =>
    rw [hq] at h
    cases o with
    | none => simp at h
    | some s' =>
      simp at h
      simp [h]

theorem atomLine_ok (z : Nat) (row : List Rat) (l : String)
    (h : atomLine z row = .ok l) : l = atomLineD z row := by
  unfold atomLine at h
  cases hq : elementLookup z with
  | error e => rw [hq] at h; simp at h
  | ok sym =>
    rw [hq] at h
    simp at h
    rw [← h, atomLineD, elementLookup_ok z sym hq]

theorem atomLines_ok :
    ∀ (coords : List (List Rat)) (zs : List Nat) (ls : List String),
      atomLines zs coords = .ok ls → ls = atomLinesD zs coords := by
  intro coords
  induction coords with
  | nil =>
    intro zs ls h
    cases zs <;> simp [atomLines] at h <;> simp [atomLinesD, ← h]
  | cons row rows ih =>
    intro zs ls h
    cases zs with
    | nil => simp [atomLines] at h
    | cons z zs' =>
      unfold atomLines at h
      cases h1 : atomLine z row with
      | error e => rw [h1] at h; simp at h
      | ok l =>
        rw [h1] at h
        cases h2 : atomLines zs' rows with
        | error e => rw [h2] at h; simp at h
        | ok ls' =>
          rw [h2] at h
          simp at h
          rw [← h, atomLinesD, List.zip_cons_cons, List.map_cons]
          rw [atomLine_ok z row l h1]
          have := ih zs' ls' h2
          rw [this, atomLinesD]

theorem lastFrameQ_ok (c : AtomCoords) (fr : List (List Rat))
    (h : lastFrameQ c = .ok fr) : lastFrameD c = fr := by
  cases c with
  | dim3 frames =>
    simp only [lastFrameQ] at h
    cases hq : frames.getLast? with
    | none => rw [hq] at h; simp at h
    | some fr' =>
      rw [hq] at h
      simp at h
      simp only [lastFrameD]
      rw [List.getLastD_eq_getLast?, hq, h]
      rfl
  | dim2 coords => simp [lastFrameQ] at h

theorem mapLastFrames_ok :
    ∀ (fs : List ParsedLog) (cs : List (List (List Rat))),
      mapLastFrames fs = .ok cs →
      cs = fs.map (fun f => lastFrameD f.atomcoords) := by
  intro fs
  induction fs with
  | nil => intro cs h; simp [mapLastFrames] at h; simp [← h]
  | cons f fs' ih =>
    intro cs h
    unfold mapLastFrames at h
    cases h1 : lastFrameQ f.atomcoords with
    | error e => rw [h1] at h; simp at h
    | ok fr =>
      rw [h1] at h
      cases h2 : mapLastFrames fs' with
      | error e => rw [h2] at h; simp at h
      | ok rest =>
        rw [h2] at h
        simp at h
        rw [← h, List.map_cons, lastFrameQ_ok _ _ h1, ih rest h2]

theorem write_cif_body_ok :
    ∀ (cs : List (List (List Rat))) (atomsL : List (List Nat))
      (names : List String) (out : List String),
      write_cif_body cs atomsL names = .ok out →
      out = List.flatten ((List.zip cs (List.zip atomsL names)).map
        (fun t => (pySplitextBase t.2.2 :: atomLinesD t.2.1 t.1) ++ ["\n"])) ∧
      cs.length ≤ atomsL.length ∧ cs.length ≤ names.length := by
  intro cs
  induction cs with
  | nil =>
    intro atomsL names out h
    simp [write_cif_body] at h
    simp [← h]
  | cons c cs' ih =>
    intro atomsL names out h
    cases atomsL with
    | nil => simp [write_cif_body] at h
    | cons zs aRest =>
      cases names with
      | nil => simp [write_cif_body] at h
      | cons nm nRest =>
        unfold write_cif_body at h
        cases h1 : atomLines zs c with
        | error e => rw [h1] at h; simp at h
        | ok lines =>
          rw [h1] at h
          cases h2 : write_cif_body cs' aRest nRest with
          | error e => rw [h2] at h; simp at h
          | ok rest =>
            rw [h2] at h
            simp at h
            obtain ⟨hrest, hl1, hl2⟩ := ih aRest nRest rest h2
            refine ⟨?_, by simp [Nat.succ_le_succ hl1],
              by simp [Nat.succ_le_succ hl2]⟩
            rw [← h, List.zip_cons_cons, List.zip_cons_cons, List.map_cons,
              List.flatten_cons, ← hrest, atomLines_ok c zs lines h1]
            simp

theorem joinSep_one (sep x : String) : joinSep sep [x] = x := rfl

theorem str_tail4 (A : String) :
    A ++ "\n" ++ joinSep "\n" ["\n", "\n"] = A ++ "\n\n\n\n" := by
  cases A with
  | mk da =>
    show String.mk (da ++ ['\n'] ++ ['\n', '\n', '\n']) =
      String.mk (da ++ ['\n', '\n', '\n', '\n'])
    apply congrArg
    simp

theorem str_rearrange2 (A J : String) :
    A ++ "\n" ++ "\n" ++ "\n" ++ (J ++ "\n\n\n\n") =
      A ++ "\n\n\n" ++ J ++ "\n\n\n\n" := by
  cases A with
  | mk da =>
    cases J with
    | mk dj =>
      show String.mk (da ++ ['\n'] ++ ['\n'] ++ ['\n'] ++
          (dj ++ ['\n', '\n', '\n', '\n'])) =
        String.mk (da ++ ['\n', '\n', '\n'] ++ dj ++ ['\n', '\n', '\n', '\n'])
      apply congrArg
      simp

theorem joinSep_blocks :
    ∀ (bs : List (List String)), bs ≠ [] → (∀ b ∈ bs, b ≠ []) →
      joinSep "\n" (List.flatten (bs.map (fun b => b ++ ["\n"])) ++ ["\n"]) =
        joinSep "\n\n\n" (bs.map (joinSep "\n")) ++ "\n\n\n\n" := by
  intro bs
  induction bs with
  | nil => intro h _; exact absurd rfl h
  | cons b bs' ih =>
    intro _ hall
    have hb : b ≠ [] := hall b (by simp)
    cases bs' with
    | nil =>
      rw [List.map_cons, List.map_nil, List.flatten_cons, List.flatten_nil,
        List.append_nil, List.append_assoc,
        joinSep_append "\n" b (["\n"] ++ ["\n"]) hb (by simp),
        List.map_cons, List.map_nil, joinSep_one]
      exact str_tail4 (joinSep "\n" b)
    | cons b2 bs'' =>
      rw [List.map_cons, List.flatten_cons, List.append_assoc,
        joinSep_append "\n" (b ++ ["\n"])
          (List.flatten (List.map (fun x => x ++ ["\n"]) (b2 :: bs'')) ++ ["\n"])
          (by simp) (by simp),
        joinSep_append "\n" b ["\n"] hb (by simp), joinSep_one,
        ih (by simp) (fun x hx => hall x (by simp [hx])),
        show List.map (joinSep "\n") (b :: b2 :: bs'') =
          joinSep "\n" b :: List.map (joinSep "\n") (b2 :: bs'') from rfl,
        joinSep_cons_of_ne "\n\n\n" (joinSep "\n" b)
          (List.map (joinSep "\n") (b2 :: bs'')) (by simp)]
      exact str_rearrange2 (joinSep "\n" b)
        (joinSep "\n\n\n" (List.map (joinSep "\n") (b2 :: bs'')))

theorem zip_map_zip (parsed : List ParsedLog) :
    ∀ names : List String,
      List.zip (parsed.map (fun f => lastFrameD f.atomcoords))
        (List.zip (parsed.map (fun f => f.atomnos)) names) =
      (List.zip parsed names).map
        (fun p => (lastFrameD p.1.atomcoords, (p.1.atomnos, p.2))) := by
  induction parsed with
  | nil => intro names; simp
  | cons f fs ih =>
    intro names
    cases names with
    | nil => simp
    | cons nm nms =>
      simp only [List.map_cons, List.zip_cons_cons, ih]

/-- C8 (amended): for every nonempty batch that `write_cif` renders
successfully, the output is, per file in input order, a block made of
the label line (source filename without extension) and one line per
atom (element symbol left-justified to width 3, the coordinates each
right-justified to width 15, space-separated), with blocks separated by
"\n\n\n" - that is, TWO blank lines between consecutive structures, not
one - and the output ending with "\n\n\n\n" - three trailing blank
lines, not one; the output file name is the -f configuration option. -/
theorem c8_blocks (parsed : List ParsedLog) (names : List String) (s : String)
    (hw : write_cif parsed names = .ok s) (hne : parsed ≠ []) :
    s = joinSep "\n\n\n" ((List.zip parsed names).map
        (fun p => blockD p.1.atomnos p.2 (lastFrameD p.1.atomcoords))) ++
      "\n\n\n\n" := by
  cases hmf : mapLastFrames parsed with
  | error e =>
    have hstep : write_cif parsed names = .error e := by
      unfold write_cif
      rw [hmf]
    rw [hstep] at hw
    simp at hw
  | ok coords =>
    have hstep : write_cif parsed names =
        (match write_cif_body coords (parsed.map (fun f => f.atomnos)) names with
          | .error e => .error e
          | .ok output => .ok (joinSep "\n" (output ++ ["\n"])) :
            Except PyErr String) := by
      unfold write_cif
      rw [hmf]
    rw [hstep] at hw
    cases hb : write_cif_body coords (parsed.map (fun f => f.atomnos)) names with
    | error e => rw [hb] at hw; simp at hw
    | ok output =>
      rw [hb] at hw
      simp at hw
      obtain ⟨hout, hlen1, hlen2⟩ := write_cif_body_ok coords _ names output hb
      have hcoords := mapLastFrames_ok parsed coords hmf
      subst hcoords
      rw [← hw, hout, zip_map_zip parsed names, List.map_map]
      have hlp : 0 < parsed.length := List.length_pos.mpr hne
      have hlnames : parsed.length ≤ names.length := by
        simpa using hlen2
      have hne2 : (List.zip parsed names).map
          (fun p => pySplitextBase p.2 ::
            atomLinesD p.1.atomnos (lastFrameD p.1.atomcoords)) ≠ [] := by
        have : 0 < (List.zip parsed names).length := by
          rw [List.length_zip]
          omega
        intro hc
        rw [← List.length_eq_zero] at hc
        rw [List.length_map] at hc
        omega
      have hall : ∀ b ∈ (List.zip parsed names).map
          (fun p => pySplitextBase p.2 ::
            atomLinesD p.1.atomnos (lastFrameD p.1.atomcoords)), b ≠ [] := by
        intro b hbm
        obtain ⟨p, -, hp⟩ := List.mem_map.mp hbm
        rw [← hp]
        simp
      have hjb := joinSep_blocks ((List.zip parsed names).map
        (fun p => pySplitextBase p.2 ::
          atomLinesD p.1.atomnos (lastFrameD p.1.atomcoords))) hne2 hall
      rw [List.map_map, List.map_map] at hjb
      exact hjb

/-- C8 witness: the amended block layout at a concrete two-structure
batch. -/
theorem c8_witness :
    write_cif [cifLogA, cifLogB] cifNames =
      .ok (joinSep "\n\n\n" ((List.zip [cifLogA, cifLogB] cifNames).map
        (fun p => blockD p.1.atomnos p.2 (lastFrameD p.1.atomcoords))) ++
          "\n\n\n\n") := by
  have hok : write_cif [cifLogA, cifLogB] cifNames =
      .ok ("a\nH         0.500000        0.000000       -1.500000\n\n\nb\nO     1,500.000000        2.000000        3.000000\n\n\n\n") := by
    with_unfolding_all rfl
  rw [hok, c8_blocks [cifLogA, cifLogB] cifNames _ hok (by simp)]

/-- C8 counterexample: on a concrete two-structure batch the rendered
output separates the structures with "\n\n\n" (two blank lines) and
ends with "\n\n\n\n" (three blank lines); it differs from the text the
claim describes, which has exactly one blank separator line and one
trailing blank line. -/
theorem c8_counterexample :
    write_cif [cifLogA, cifLogB] cifNames =
      .ok (blockD [1] "a.out" [[1 / 2, 0, -3 / 2]] ++ "\n\n\n" ++
        blockD [8] "b.out" [[1500, 2, 3]] ++ "\n\n\n\n") ∧
    blockD [1] "a.out" [[1 / 2, 0, -3 / 2]] ++ "\n\n\n" ++
        blockD [8] "b.out" [[1500, 2, 3]] ++ "\n\n\n\n" ≠
      blockD [1] "a.out" [[1 / 2, 0, -3 / 2]] ++ "\n\n" ++
        blockD [8] "b.out" [[1500, 2, 3]] ++ "\n\n" := by
  have hA : blockD [1] "a.out" [[1 / 2, 0, -3 / 2]] =
      "a\nH         0.500000        0.000000       -1.500000" := by
    with_unfolding_all rfl
  have hB : blockD [8] "b.out" [[1500, 2, 3]] =
      "b\nO     1,500.000000        2.000000        3.000000" := by
    with_unfolding_all rfl
  constructor
  · rw [hA, hB]
    with_unfolding_all rfl
  · rw [hA, hB]
    decide
